import Mathlib

/-!
Verification of the FactorioManager core (factorio_mod_manager/core) against its
natural-language specification.

The Python sources are shallowly embedded:
* Python `str` values are embedded as `List Char` (`PyStr`), so that the string
  operations used by the code (`strip`, `startswith`, `replace`, `split`, `in`)
  become structurally recursive Lean functions that `decide` can evaluate.
* Python `dict` values (insertion ordered) are embedded as association lists
  with in-place update semantics (`dictSet` / `dictUpdate`).
* The network is embedded as explicit outcome data (`ReqOutcome`,
  `MirrorResult`) and the registry seen by the resolver as an association list
  from mod names to parsed mod records.
* The recursive resolver is embedded with explicit fuel; fuel sufficiency is
  proved, which is the termination statement for the embedding.
-/

set_option autoImplicit false

namespace FactorioManager

/-! ## Python strings as lists of characters -/

abbrev PyStr := List Char

/-- Characters treated as whitespace by Python's `str.strip()` / `str.split()`
(the ASCII whitespace characters; exotic unicode whitespace does not occur in
dependency declarations). -/
def pyIsSpace (c : Char) : Bool :=
  c = ' ' || c = '\t' || c = '\n' || c = '\r' || c = '\x0b' || c = '\x0c'

/-- Python `s.strip()`: drop whitespace from both ends. -/
def pyStrip (s : PyStr) : PyStr :=
  ((s.dropWhile pyIsSpace).reverse.dropWhile pyIsSpace).reverse

/-- Python `s.startswith(pre)`. -/
def pyStartsWith (pre s : PyStr) : Bool :=
  pre.isPrefixOf s

/-- Iteration core of Python `s.replace(pat, rep)`.  The fuel argument only
bounds the number of iterations (each iteration consumes at least one input
character, so `s.length` fuel is always enough); it makes the recursion
structural so that `decide` can evaluate the parser on concrete strings. -/
def pyReplaceFuel (pat rep : PyStr) : Nat → PyStr → PyStr
  | 0, _ => []
  | _ + 1, [] => []
  | fuel + 1, c :: rest =>
    if pat ≠ [] ∧ pat.isPrefixOf (c :: rest) then
      rep ++ pyReplaceFuel pat rep fuel ((c :: rest).drop pat.length)
    else
      c :: pyReplaceFuel pat rep fuel rest

/-- Python `s.replace(pat, rep)`: replace every (leftmost, non-overlapping)
occurrence of `pat` by `rep`.  The code only ever calls this with the nonempty
patterns `"(?)"` and `"?"`; for an empty pattern this embedding returns `s`. -/
def pyReplace (pat rep s : PyStr) : PyStr :=
  pyReplaceFuel pat rep s.length s

/-- Worker for Python `s.split()`: `cur` is the (reversed) pending token. -/
def pySplitWsAux (cur : PyStr) : PyStr → List PyStr
  | [] => if cur = [] then [] else [cur.reverse]
  | c :: rest =>
    if pyIsSpace c then
      if cur = [] then pySplitWsAux [] rest
      else cur.reverse :: pySplitWsAux [] rest
    else pySplitWsAux (c :: cur) rest

/-- Python `s.split()` (no separator): split on runs of whitespace, producing
no empty tokens. -/
def pySplitWs (s : PyStr) : List PyStr :=
  pySplitWsAux [] s

/-- Python `sub in s` for a single character `sub` (the code only tests
membership of the one-character string `" "`). -/
def pyContainsChar (c : Char) (s : PyStr) : Bool :=
  s.contains c

/-- Python `s.split(sep)[0]` for a one-character separator: the text before
the first occurrence of `sep` (the whole string when `sep` is absent). -/
def pySplitHead (sep : Char) (s : PyStr) : PyStr :=
  s.takeWhile (fun c => c ≠ sep)

/-! ## Dependency declaration parsing (core/portal.py, get_mod_dependencies) -/

/-- The fixed paid-expansion identifiers (core/mod.py, `FACTORIO_EXPANSIONS`). -/
def FACTORIO_EXPANSIONS : List PyStr :=
  ["space-age".data, "elevated-rails".data]

/-- The classification a single dependency declaration receives in the loop
body of `FactorioPortalAPI.get_mod_dependencies` (which list, if any, the
extracted name is appended to). -/
inductive DepClass where
  | skip
  | incompatible (name : PyStr)
  | optionalDep (name : PyStr)
  | expansion (name : PyStr)
  | required (name : PyStr)
deriving Repr, DecidableEq

/-- One iteration of the dependency loop in
`FactorioPortalAPI.get_mod_dependencies` (core/portal.py lines 170-199):
strip the declaration, discard empty/`base` entries, then dispatch on the
leading marker (`!`, `(?)`/`?`, or none) to extract a name and pick the list
it is appended to. -/
def classify_dependency (dep0 : PyStr) : DepClass :=
  let dep := pyStrip dep0
  if dep = [] ∨ dep = "base".data ∨ pyStartsWith "base ".data dep then
    .skip
  else if pyStartsWith "!".data dep then
    -- incompatible: dep_name = dep[1:].strip()
    .incompatible (pyStrip (dep.drop 1))
  else if pyStartsWith "(?)".data dep || pyStartsWith "?".data dep then
    -- optional: remove the markers, then extract the bare name
    let n0 := pyStrip (pyReplace "?".data [] (pyReplace "(?)".data [] dep))
    let name :=
      if pyContainsChar ' ' n0 then (pySplitWs n0).headD []
      else pyStrip (pySplitHead '!' (pySplitHead '<' (pySplitHead '=' (pySplitHead '>' n0))))
    if name ∈ FACTORIO_EXPANSIONS then .expansion name
    else if name ≠ [] then .optionalDep name
    else .skip
  else
    -- required: extract the bare name
    let name :=
      if pyContainsChar ' ' dep then (pySplitWs dep).headD []
      else pyStrip (pySplitHead '<' (pySplitHead '=' (pySplitHead '>' dep)))
    if name ≠ [] ∧ name ≠ "base".data then
      if name ∈ FACTORIO_EXPANSIONS then .expansion name else .required name
    else .skip

/-- The full `FactorioPortalAPI.get_mod_dependencies` loop over the
declaration strings of the latest release, producing
(required, optional, incompatible, expansion) name lists in order. -/
def get_mod_dependencies (deps : List PyStr) :
    List PyStr × List PyStr × List PyStr × List PyStr :=
  match deps with
  | [] => ([], [], [], [])
  | d :: rest =>
    let (req, opt, inc, exp) := get_mod_dependencies rest
    match classify_dependency d with
    | .skip => (req, opt, inc, exp)
    | .incompatible n => (req, opt, n :: inc, exp)
    | .optionalDep n => (req, n :: opt, inc, exp)
    | .expansion n => (req, opt, inc, n :: exp)
    | .required n => (n :: req, opt, inc, exp)

/-! ## Version comparison (core/mod.py, Mod._compare_versions) -/

/-- Numeric value of a digit string once underscores are dropped (Python
`int` allows single underscores between digits). -/
def pyDigitsVal (s : PyStr) : Nat :=
  s.foldl (fun acc c => if c = '_' then acc else acc * 10 + (c.toNat - '0'.toNat)) 0

/-- Validity of a digit body for Python `int`: digits with single underscores
strictly between digits. -/
def pyUnderscoreDigits : PyStr → Bool
  | [] => false
  | [c] => c.isDigit
  | c :: d :: rest =>
    if c.isDigit then pyUnderscoreDigits (d :: rest)
    else if c = '_' then d.isDigit && pyUnderscoreDigits (d :: rest)
    else false

/-- A valid unsigned digit body for Python `int`: nonempty, starts with a
digit, and is digits with single interior underscores. -/
def pyIntBodyValid : PyStr → Bool
  | [] => false
  | c :: rest => c.isDigit && pyUnderscoreDigits (c :: rest)

/-- Python `int(s)` on a string: strip whitespace, optional sign, decimal
digits (with Python 3 underscore grouping); `none` models the `ValueError`
raised on anything else. -/
def pyInt (s : PyStr) : Option Int :=
  match pyStrip s with
  | '+' :: rest => if pyIntBodyValid rest then some (pyDigitsVal rest : Int) else none
  | '-' :: rest => if pyIntBodyValid rest then some (-(pyDigitsVal rest : Int)) else none
  | t => if pyIntBodyValid t then some (pyDigitsVal t : Int) else none

/-- Python `s.split(sep)` for a one-character separator, keeping empty
pieces (so `"".split('.') == ['']`). -/
def pySplitChar (sep : Char) : PyStr → List PyStr
  | [] => [[]]
  | c :: rest =>
    if c = sep then [] :: pySplitChar sep rest
    else
      match pySplitChar sep rest with
      | [] => [[c]]
      | t :: ts => (c :: t) :: ts

/-- The list comprehension `[int(x) for x in v.split('.')]`: `none` models
the `ValueError` escaping when any component is non-numeric. -/
def pyVersionParts (v : PyStr) : Option (List Int) :=
  (pySplitChar '.' v).mapM pyInt

/-- The `for i in range(max(len, len)))` loop of `Mod._compare_versions`:
index both part lists with default 0 and return at the first difference. -/
def compareLoop (p1 p2 : List Int) : Int :=
  match (List.range (max p1.length p2.length)).findSome? (fun i =>
    let a := p1.getD i 0
    let b := p2.getD i 0
    if a < b then some (-1) else if b < a then some 1 else none) with
  | some r => r
  | none => 0

/-- `Mod._compare_versions` (core/mod.py lines 67-90): split both strings on
dots, parse components as ints (any failure yields 0 — the
`except (ValueError, AttributeError)` branch), then compare component-wise
with missing trailing components read as 0. -/
def _compare_versions (v1 v2 : PyStr) : Int :=
  match pyVersionParts v1, pyVersionParts v2 with
  | some p1, some p2 => compareLoop p1 p2
  | _, _ => 0

/-- Comparison of remaining components against an exhausted (zero-padded)
left list: helper for `versionCmpSpec`. -/
def cmpZeros : List Int → Int
  | [] => 0
  | y :: ys => if 0 < y then -1 else if y < 0 then 1 else cmpZeros ys

/-- Modelled from the spec: "comparing `installed_version` against
`latest_version` using component-wise numeric comparison (missing trailing
components treated as 0)" — structural recursion on the two component
lists, padding the shorter with zeros. -/
def versionCmpSpec : List Int → List Int → Int
  | [], ys => cmpZeros ys
  | x :: xs, [] => if x < 0 then -1 else if 0 < x then 1 else versionCmpSpec xs []
  | x :: xs, y :: ys => if x < y then -1 else if y < x then 1 else versionCmpSpec xs ys

/-! ## Registry client (core/portal.py, FactorioPortalAPI.get_mod) -/

/-- The `error_type` strings of `PortalAPIError` (core/portal.py line 18). -/
inductive ErrorType where
  | offline
  | not_found
  | server_error
  | timeout
  | unknown
deriving Repr, DecidableEq

/-- The `PortalAPIError` payload: its classification and optional HTTP
status code (the human-readable message is not modelled). -/
structure PortalAPIError where
  error_type : ErrorType
  status_code : Option Nat
deriving Repr, DecidableEq

/-- The outcome of the one HTTP request `get_mod` makes, over an abstract
metadata type `α`: a response with a status code and (when the body is valid
JSON) a parsed body, or one of the exception classes the code distinguishes. -/
inductive ReqOutcome (α : Type) where
  | resp (status : Nat) (body : Option α)
  | connectionError
  | timeoutExc
  | otherExc
deriving Repr, DecidableEq

/-- `FactorioPortalAPI.get_mod` (core/portal.py lines 47-103): classify the
request outcome.  Status 200 parses the body (`response.json()` raising on an
unparseable body is caught by the trailing generic handler as `unknown`);
404 and the 5xx/other branches raise typed errors (both non-200/non-404
branches carry `server_error` with the status — they differ only in message);
connection errors, timeouts and anything else map to `offline`, `timeout`
and `unknown`. -/
def get_mod {α : Type} (o : ReqOutcome α) : Except PortalAPIError α :=
  match o with
  | .resp status body =>
    if status = 200 then
      match body with
      | some j => .ok j
      | none => .error ⟨.unknown, none⟩
    else if status = 404 then .error ⟨.not_found, some 404⟩
    else .error ⟨.server_error, some status⟩
  | .connectionError => .error ⟨.offline, none⟩
  | .timeoutExc => .error ⟨.timeout, none⟩
  | .otherExc => .error ⟨.unknown, none⟩

/-! ## Artifact fetcher (core/downloader.py, _download_with_re146 / download_mod)

The filesystem is modelled as the content of the one target path
`{name}_{version}.zip` the call touches: `none` = no file there,
`some b` = a file with byte content `b`.  Archive integrity checking
(`zipfile.ZipFile` + `testzip`) is abstracted as a predicate on the bytes. -/

abbrev Bytes := List Nat

/-- The observable outcome of the mirror GET in `_download_with_re146`: an
HTTP response (status plus streamed body), an exception raised before
anything was written (e.g. `requests.get` itself failed), or an exception
after a partial body was already streamed to disk. -/
inductive MirrorResult where
  | resp (status : Nat) (body : Bytes)
  | exnBeforeWrite
  | exnDuringWrite (written : Bytes)
deriving Repr, DecidableEq

/-- `ModDownloader._download_with_re146` (core/downloader.py lines 210-288)
acting on the target-path content: 404 and other non-200 statuses fail before
the output file is opened (path untouched); a 200 body is written over the
target path with `open(..., 'wb')` and then integrity-checked, a failed check
unlinking the file; the generic exception handler also unlinks whatever is at
the target path (including a pre-existing file when nothing was written yet). -/
def _download_with_re146 (validZip : Bytes → Bool) (res : MirrorResult)
    (fs : Option Bytes) : Bool × Option Bytes :=
  match res with
  | .resp status body =>
    if status = 404 then (false, fs)
    else if status ≠ 200 then (false, fs)
    else if validZip body then (true, some body)
    else (false, none)
  | .exnBeforeWrite => (false, none)
  | .exnDuringWrite _ => (false, none)

/-- `ModDownloader.download_mod` (core/downloader.py lines 170-208): an
existing file at the target path short-circuits to success unless `force`;
otherwise the re146 download runs (the older-version scan only logs). -/
def download_mod (validZip : Bytes → Bool) (res : MirrorResult) (force : Bool)
    (fs : Option Bytes) : Bool × Option Bytes :=
  if fs.isSome ∧ ¬ force then (true, fs)
  else _download_with_re146 validZip res fs

/-! ## Dependency resolver (core/downloader.py, resolve_dependencies)

Python dicts are insertion-ordered; they are embedded as association lists
where assignment to a present key replaces the value in place and assignment
to a fresh key appends. -/

abbrev PyDict (β : Type) := List (PyStr × β)

/-- Python `d[k]` lookup (first entry with the key; keys are unique in every
dict the code builds). -/
def dictGet {β : Type} (k : PyStr) (d : PyDict β) : Option β :=
  List.lookup k d

/-- Python `d[k] = v`: replace in place, or append a fresh key. -/
def dictSet {β : Type} (d : PyDict β) (k : PyStr) (v : β) : PyDict β :=
  match d with
  | [] => [(k, v)]
  | (k', v') :: rest => if k' = k then (k', v) :: rest else (k', v') :: dictSet rest k v

/-- Python `d.update(src)`: assign every entry of `src` into `d`, in `src`'s
iteration order. -/
def dictUpdate {β : Type} (d src : PyDict β) : PyDict β :=
  src.foldl (fun acc kv => dictSet acc kv.1 kv.2) d

/-- The fields of a parsed `Mod` (core/mod.py) that the resolver reads. -/
structure PMod where
  dependencies : List PyStr
  optional_dependencies : List PyStr
  incompatible_dependencies : List PyStr
  expansion_dependencies : List PyStr
deriving Repr, DecidableEq

/-- The registry as the resolver sees it: what
`FactorioPortalAPI.parse_mod_from_portal` would return per name (that method
absorbs every portal error into `None`, so it is a total map to `Option`). -/
abbrev Registry := List (PyStr × PMod)

/-- `parse_mod_from_portal` as used by the resolver: a registry lookup. -/
def parse_mod_from_portal (r : Registry) (name : PyStr) : Option PMod :=
  List.lookup name r

/-- The state `resolve_dependencies` accumulates: the closure dict, the
incompatibility and expansion lists, the shared `visited` set (a list here;
the guard keeps it duplicate-free), and a ghost trace of the names passed to
`parse_mod_from_portal` (instrumentation only — nothing reads it). -/
structure ResolveOut where
  dependencies : PyDict PMod
  incompatibilities : List PyStr
  expansions : List PyStr
  visited : List PyStr
  trace : List PyStr
deriving Repr, DecidableEq

/-- One turn of the `for dep_name in all_deps` loop of
`resolve_dependencies` (lines 155-163): merge one recursive result into the
running state. -/
def mergeStep (st o : ResolveOut) : ResolveOut :=
  ⟨dictUpdate st.dependencies o.dependencies,
   st.incompatibilities ++ o.incompatibilities,
   st.expansions ++ o.expansions,
   o.visited,
   st.trace ++ o.trace⟩

/-- The `for dep_name in all_deps` loop itself, with the recursive call
abstracted as `g` (the call receives the current shared `visited`). -/
def depsFold (g : PyStr → List PyStr → ResolveOut) (ds : List PyStr)
    (st : ResolveOut) : ResolveOut :=
  ds.foldl (fun st dep => mergeStep st (g dep st.visited)) st

/-- `ModDownloader.resolve_dependencies` (core/downloader.py lines 103-168)
with explicit fuel bounding the recursion depth (each level of real recursion
consumes one not-yet-visited registry key, so `r.length + 1` fuel is always
enough — proved below as `resolve_fuel_sufficient`): the visited guard, the
lookup (whose failure is logged and swallowed), seeding the closure with the
mod itself plus its incompatibility/expansion lists, and the recursion over
required (plus, optionally, optional) dependencies. -/
def resolve_dependencies_fuel (r : Registry) (include_optional : Bool) :
    Nat → PyStr → List PyStr → ResolveOut
  | 0, _, visited => ⟨[], [], [], visited, []⟩
  | fuel + 1, mod_name, visited =>
    if mod_name ∈ visited then ⟨[], [], [], visited, []⟩
    else
      match parse_mod_from_portal r mod_name with
      | none => ⟨[], [], [], mod_name :: visited, [mod_name]⟩
      | some mod =>
        depsFold (fun dep v => resolve_dependencies_fuel r include_optional fuel dep v)
          (mod.dependencies ++
            (if include_optional then mod.optional_dependencies else []))
          ⟨dictSet [] mod_name mod, mod.incompatible_dependencies,
           mod.expansion_dependencies, mod_name :: visited, [mod_name]⟩

/-- A top-level `resolve_dependencies` call (`visited=None` in the source
starts from the empty set); fuel `r.length + 1` is sufficient. -/
def resolve_dependencies (r : Registry) (include_optional : Bool)
    (mod_name : PyStr) : ResolveOut :=
  resolve_dependencies_fuel r include_optional (r.length + 1) mod_name []

/-! ## Download orchestrator (core/downloader.py, download_mods) -/

/-- Python string comparison (`sorted` key order): lexicographic by code
point. -/
def pyStrLe : PyStr → PyStr → Bool
  | [], _ => true
  | _ :: _, [] => false
  | c :: cs, d :: ds => if c < d then true else if d < c then false else pyStrLe cs ds

/-- Insert into a sorted list (after every element that compares `le`). -/
def insertLe {α : Type} (le : α → α → Bool) (x : α) : List α → List α
  | [] => [x]
  | y :: ys => if le y x then y :: insertLe le x ys else x :: y :: ys

/-- Insertion sort (only its permutation property matters below). -/
def sortLe {α : Type} (le : α → α → Bool) : List α → List α
  | [] => []
  | x :: xs => insertLe le x (sortLe le xs)

/-- `dict(sorted(all_mods.items()))` (core/downloader.py line 326): the
merged closure re-keyed in ascending name order. -/
def pySortedByKey {β : Type} (d : PyDict β) : PyDict β :=
  sortLe (fun a b => pyStrLe a.1 b.1) d

/-- The resolution phase of `ModDownloader.download_mods` (lines 312-323):
resolve each requested root and `update` the running `all_mods` dict with its
closure.  `resolve_dependencies` absorbs every exception internally (lines
133/165-166), so the `except` branch appending the root to `failed` is
unreachable and the phase contributes nothing to `failed`. -/
def merge_resolutions (r : Registry) (include_optional : Bool)
    (mod_names : List PyStr) : PyDict PMod :=
  mod_names.foldl
    (fun all_mods root =>
      dictUpdate all_mods (resolve_dependencies r include_optional root).dependencies)
    []

/-- The value the claim's "first-write-wins" merge would keep for a name:
the entry from the first closure (in root order) containing it. -/
def firstClosureValue (r : Registry) (include_optional : Bool)
    (mod_names : List PyStr) (k : PyStr) : Option PMod :=
  match mod_names with
  | [] => none
  | root :: rest =>
    match dictGet k (resolve_dependencies r include_optional root).dependencies with
    | some v => some v
    | none => firstClosureValue r include_optional rest k

/-- `ModDownloader.download_mods` (core/downloader.py lines 291-399):
resolve-and-merge, sort, then download every resolved mod, partitioning into
`downloaded` (the `Mod` objects) and `failed` (names).  Per-mod download
outcomes are abstracted as `download_ok`; the thread pool's nondeterministic
completion order is modelled as submission order (the claims checked here
are about membership, which §5 of the spec declares order-independent). -/
def download_mods (r : Registry) (download_ok : PyStr → Bool)
    (include_optional : Bool) (mod_names : List PyStr) :
    List (PyStr × PMod) × List PyStr :=
  let all_mods := pySortedByKey (merge_resolutions r include_optional mod_names)
  let downloaded := all_mods.filter (fun kv => download_ok kv.1)
  let failed := (all_mods.filter (fun kv => ¬ download_ok kv.1)).map Prod.fst
  (downloaded, failed)

/-! Concrete registries exercised by the claims. -/

/-- A mod record with only required dependencies. -/
def pmodOf (deps : List PyStr) : PMod := ⟨deps, [], [], []⟩

/-- The synthetic cyclic registry of the spec's cycle-termination property:
A depends on B, B on C, C back on A. -/
def regCycle : Registry :=
  [("A".data, pmodOf ["B".data]),
   ("B".data, pmodOf ["C".data]),
   ("C".data, pmodOf ["A".data])]

/-- The registry of the optional-exclusion property, over arbitrary names:
`a` requires `b` and optionally wants `c`; `b` and `c` are leaves. -/
def regOpt (a b c : PyStr) : Registry :=
  [(a, ⟨[b], [c], [], []⟩), (b, pmodOf []), (c, pmodOf [])]

/-! ## Association-list lemmas -/

theorem dictGet_cons {β : Type} (k k' : PyStr) (v' : β) (rest : PyDict β) :
    dictGet k ((k', v') :: rest) = if k = k' then some v' else dictGet k rest := by
  by_cases h : k = k'
  · subst h; simp [dictGet, List.lookup]
  · simp [dictGet, List.lookup, h, beq_false_of_ne h]

theorem mem_of_dictGet {β : Type} : ∀ {l : PyDict β} {k : PyStr} {v : β},
    dictGet k l = some v → (k, v) ∈ l := by
  intro l
  induction l with
  | nil => intro k v h; simp [dictGet, List.lookup] at h
  | cons kv rest ih =>
    intro k v h
    obtain ⟨k', v'⟩ := kv
    rw [dictGet_cons] at h
    by_cases hk : k = k'
    · rw [if_pos hk] at h
      have hv : v' = v := Option.some.inj h
      exact (List.mem_cons).mpr (Or.inl (by rw [hk, hv]))
    · rw [if_neg hk] at h
      exact (List.mem_cons).mpr (Or.inr (ih h))

theorem dictGet_isSome_of_mem {β : Type} : ∀ {l : PyDict β} {k : PyStr} {v : β},
    (k, v) ∈ l → (dictGet k l).isSome := by
  intro l
  induction l with
  | nil => intro k v h; simp at h
  | cons kv rest ih =>
    intro k v h
    obtain ⟨k', v'⟩ := kv
    rw [dictGet_cons]
    by_cases hk : k = k'
    · simp [hk]
    · rw [if_neg hk]
      rcases List.mem_cons.mp h with h1 | h1
      · exact absurd (congrArg Prod.fst h1) hk
      · exact ih h1

theorem dictGet_eq_some_of_mem_nodup {β : Type} : ∀ {l : PyDict β} {k : PyStr} {v : β},
    (l.map Prod.fst).Nodup → (k, v) ∈ l → dictGet k l = some v := by
  intro l
  induction l with
  | nil => intro k v _ h; simp at h
  | cons kv rest ih =>
    intro k v hnd h
    obtain ⟨k', v'⟩ := kv
    simp only [List.map_cons, List.nodup_cons] at hnd
    rw [dictGet_cons]
    rcases List.mem_cons.mp h with h1 | h1
    · obtain ⟨hk, hv⟩ := Prod.ext_iff.mp h1
      simp at hk hv
      simp [hk, hv]
    · have hk : k ≠ k' := by
        intro hkk
        subst hkk
        exact hnd.1 (List.mem_map.mpr ⟨(k, v), h1, rfl⟩)
      rw [if_neg hk]
      exact ih hnd.2 h1

theorem dictGet_eq_none_iff {β : Type} : ∀ {l : PyDict β} {k : PyStr},
    dictGet k l = none ↔ k ∉ l.map Prod.fst := by
  intro l
  induction l with
  | nil => intro k; simp [dictGet, List.lookup]
  | cons kv rest ih =>
    intro k
    obtain ⟨k', v'⟩ := kv
    rw [dictGet_cons]
    by_cases hk : k = k'
    · rw [if_pos hk]
      simp only [List.map_cons, List.mem_cons]
      constructor
      · intro h; exact Option.noConfusion h
      · intro h; exact absurd (Or.inl hk) h
    · rw [if_neg hk]
      simp only [List.map_cons, List.mem_cons]
      rw [ih]
      constructor
      · intro h hor
        rcases hor with h1 | h1
        · exact hk h1
        · exact h h1
      · intro h h1
        exact h (Or.inr h1)

theorem mem_dictSet {β : Type} : ∀ {d : PyDict β} {k : PyStr} {v : β} {kv : PyStr × β},
    kv ∈ dictSet d k v → kv = (k, v) ∨ kv ∈ d := by
  intro d
  induction d with
  | nil => intro k v kv h; simpa [dictSet] using h
  | cons kv0 rest ih =>
    intro k v kv h
    obtain ⟨k', v'⟩ := kv0
    by_cases hk : k' = k
    · rw [dictSet, if_pos hk] at h
      rcases List.mem_cons.mp h with h1 | h1
      · exact Or.inl (by rw [h1, hk])
      · exact Or.inr (List.mem_cons.mpr (Or.inr h1))
    · rw [dictSet, if_neg hk] at h
      rcases List.mem_cons.mp h with h1 | h1
      · exact Or.inr (List.mem_cons.mpr (Or.inl h1))
      · rcases ih h1 with h2 | h2
        · exact Or.inl h2
        · exact Or.inr (List.mem_cons.mpr (Or.inr h2))

theorem keys_dictSet {β : Type} : ∀ {d : PyDict β} {k : PyStr} {v : β},
    (dictSet d k v).map Prod.fst =
      if k ∈ d.map Prod.fst then d.map Prod.fst else d.map Prod.fst ++ [k] := by
  intro d
  induction d with
  | nil => intro k v; simp [dictSet]
  | cons kv0 rest ih =>
    intro k v
    obtain ⟨k', v'⟩ := kv0
    by_cases hk : k' = k
    · rw [dictSet, if_pos hk]
      simp only [List.map_cons, List.mem_cons]
      rw [if_pos (Or.inl hk.symm)]
    · rw [dictSet, if_neg hk]
      simp only [List.map_cons, List.mem_cons]
      rw [ih]
      by_cases hmem : k ∈ rest.map Prod.fst
      · rw [if_pos hmem, if_pos (Or.inr hmem)]
      · rw [if_neg hmem, if_neg ?_, List.cons_append]
        intro hor
        rcases hor with h1 | h1
        · exact hk h1.symm
        · exact hmem h1

theorem nodup_keys_dictSet {β : Type} {d : PyDict β} {k : PyStr} {v : β}
    (h : (d.map Prod.fst).Nodup) : ((dictSet d k v).map Prod.fst).Nodup := by
  rw [keys_dictSet]
  by_cases hmem : k ∈ d.map Prod.fst
  · rwa [if_pos hmem]
  · rw [if_neg hmem]
    rw [List.nodup_append]
    refine ⟨h, List.nodup_singleton k, ?_⟩
    intro a ha hb
    rw [List.mem_singleton] at hb
    subst hb
    exact hmem ha

theorem mem_dictUpdate {β : Type} : ∀ {src d : PyDict β} {kv : PyStr × β},
    kv ∈ dictUpdate d src → kv ∈ d ∨ kv ∈ src := by
  intro src
  induction src with
  | nil => intro d kv h; exact Or.inl h
  | cons kv0 rest ih =>
    intro d kv h
    simp only [dictUpdate, List.foldl_cons] at h
    rcases ih h with h1 | h1
    · rcases mem_dictSet h1 with h2 | h2
      · exact Or.inr (List.mem_cons.mpr (Or.inl h2))
      · exact Or.inl h2
    · exact Or.inr (List.mem_cons.mpr (Or.inr h1))

theorem nodup_keys_dictUpdate {β : Type} : ∀ {src d : PyDict β},
    (d.map Prod.fst).Nodup → ((dictUpdate d src).map Prod.fst).Nodup := by
  intro src
  induction src with
  | nil => intro d h; exact h
  | cons kv0 rest ih =>
    intro d h
    simp only [dictUpdate, List.foldl_cons]
    exact ih (nodup_keys_dictSet h)

/-! ## Sorting lemmas (only the permutation property is needed) -/

theorem perm_insertLe {α : Type} (le : α → α → Bool) (x : α) :
    ∀ (l : List α), List.Perm (insertLe le x l) (x :: l) := by
  intro l
  induction l with
  | nil => simp [insertLe]
  | cons y ys ih =>
    rw [insertLe]
    by_cases h : le y x
    · rw [if_pos h]
      exact List.Perm.trans (List.Perm.cons y ih) (List.Perm.swap x y ys)
    · rw [if_neg h]

theorem perm_sortLe {α : Type} (le : α → α → Bool) :
    ∀ (l : List α), List.Perm (sortLe le l) l := by
  intro l
  induction l with
  | nil => simp [sortLe]
  | cons x xs ih =>
    rw [sortLe]
    exact List.Perm.trans (perm_insertLe le x _) (List.Perm.cons x ih)

/-! ## Resolver invariants -/

/-- The running invariant of one `resolve_dependencies_fuel` call relative to
the `visited` set it received: the shared visited set only grows, each traced
(looked-up) name was unvisited at lookup time and visited afterwards, the
trace has no duplicates, and every closure entry is a registry entry. -/
def RInv (r : Registry) (visited : List PyStr) (o : ResolveOut) : Prop :=
  visited ⊆ o.visited ∧
  o.trace.Nodup ∧
  (∀ t ∈ o.trace, t ∉ visited) ∧
  (∀ t ∈ o.trace, t ∈ o.visited) ∧
  (∀ kv ∈ o.dependencies, List.lookup kv.1 r = some kv.2)

theorem RInv_mergeStep {r : Registry} {visited : List PyStr} {st o : ResolveOut}
    (hst : RInv r visited st) (ho : RInv r st.visited o) :
    RInv r visited (mergeStep st o) := by
  obtain ⟨hv1, hn1, hf1, hi1, he1⟩ := hst
  obtain ⟨hv2, hn2, hf2, hi2, he2⟩ := ho
  refine ⟨?_, ?_, ?_, ?_, ?_⟩
  · exact fun a ha => hv2 (hv1 ha)
  · show (st.trace ++ o.trace).Nodup
    rw [List.nodup_append]
    refine ⟨hn1, hn2, ?_⟩
    intro a ha hb
    exact hf2 a hb (hi1 a ha)
  · intro t ht
    rcases List.mem_append.mp ht with h1 | h1
    · exact hf1 t h1
    · exact fun hv => hf2 t h1 (hv1 hv)
  · intro t ht
    rcases List.mem_append.mp ht with h1 | h1
    · exact hv2 (hi1 t h1)
    · exact hi2 t h1
  · intro kv hkv
    rcases mem_dictUpdate hkv with h1 | h1
    · exact he1 kv h1
    · exact he2 kv h1

theorem depsFold_RInv {r : Registry} {g : PyStr → List PyStr → ResolveOut}
    (hg : ∀ n v, RInv r v (g n v)) :
    ∀ (ds : List PyStr) (st : ResolveOut) (visited : List PyStr),
      RInv r visited st → RInv r visited (depsFold g ds st) := by
  intro ds
  induction ds with
  | nil => intro st visited hst; exact hst
  | cons d rest ih =>
    intro st visited hst
    simp only [depsFold, List.foldl_cons]
    exact ih _ visited (RInv_mergeStep hst (hg d st.visited))

theorem RInv_empty (r : Registry) (visited : List PyStr) :
    RInv r visited ⟨[], [], [], visited, []⟩ :=
  ⟨fun _ ha => ha, List.nodup_nil,
   fun t ht => absurd ht (List.not_mem_nil t),
   fun t ht => absurd ht (List.not_mem_nil t),
   fun kv hkv => absurd hkv (List.not_mem_nil kv)⟩

theorem RInv_notfound (r : Registry) (name : PyStr) (visited : List PyStr)
    (hmem : name ∉ visited) :
    RInv r visited ⟨[], [], [], name :: visited, [name]⟩ := by
  refine ⟨fun a ha => List.mem_cons_of_mem _ ha, List.nodup_singleton name, ?_, ?_, ?_⟩
  · intro t ht
    rw [List.mem_singleton] at ht
    subst ht
    exact hmem
  · intro t ht
    rw [List.mem_singleton] at ht
    subst ht
    exact List.mem_cons_self _ _
  · intro kv hkv
    exact absurd hkv (List.not_mem_nil kv)

theorem RInv_found (r : Registry) (name : PyStr) (mod : PMod)
    (incs exps : List PyStr) (visited : List PyStr)
    (hmem : name ∉ visited) (hp : List.lookup name r = some mod) :
    RInv r visited ⟨dictSet [] name mod, incs, exps, name :: visited, [name]⟩ := by
  refine ⟨fun a ha => List.mem_cons_of_mem _ ha, List.nodup_singleton name, ?_, ?_, ?_⟩
  · intro t ht
    rw [List.mem_singleton] at ht
    subst ht
    exact hmem
  · intro t ht
    rw [List.mem_singleton] at ht
    subst ht
    exact List.mem_cons_self _ _
  · intro kv hkv
    rcases mem_dictSet hkv with h1 | h1
    · rw [h1]
      exact hp
    · exact absurd h1 (List.not_mem_nil kv)

/-- Every `resolve_dependencies_fuel` call satisfies the invariant. -/
theorem resolveFuel_RInv (r : Registry) (io : Bool) :
    ∀ (fuel : Nat) (name : PyStr) (visited : List PyStr),
      RInv r visited (resolve_dependencies_fuel r io fuel name visited) := by
  intro fuel
  induction fuel with
  | zero => intro name visited; exact RInv_empty r visited
  | succ fuel ih =>
    intro name visited
    rw [resolve_dependencies_fuel]
    by_cases hmem : name ∈ visited
    · rw [if_pos hmem]
      exact RInv_empty r visited
    · rw [if_neg hmem]
      cases hp : parse_mod_from_portal r name with
      | none => exact RInv_notfound r name visited hmem
      | some mod =>
        exact depsFold_RInv (fun n v => ih n v) _ _ visited
          (RInv_found r name mod _ _ visited hmem hp)

/-! ## Fuel sufficiency (termination of the resolver) -/

/-- The number of registry keys not yet visited: the measure that bounds the
real recursion depth of `resolve_dependencies`. -/
def unvisitedCount (r : Registry) (visited : List PyStr) : Nat :=
  ((r.map Prod.fst).filter (fun k => decide (k ∉ visited))).length

theorem unvisitedCount_anti {r : Registry} {v v' : List PyStr} (h : v ⊆ v') :
    unvisitedCount r v' ≤ unvisitedCount r v := by
  apply List.Sublist.length_le
  apply List.monotone_filter_right
  intro a ha
  simp only [decide_eq_true_eq] at ha ⊢
  exact fun hav => ha (h hav)

theorem filter_unvisited_cons_lt {name : PyStr} {visited : List PyStr}
    (hnv : name ∉ visited) :
    ∀ {l : List PyStr}, name ∈ l →
      (l.filter (fun k => decide (k ∉ name :: visited))).length <
        (l.filter (fun k => decide (k ∉ visited))).length := by
  intro l
  induction l with
  | nil => intro h; exact absurd h (List.not_mem_nil name)
  | cons a l ih =>
    intro _h
    by_cases ha : a = name
    · subst ha
      rw [List.filter_cons_of_neg (by simp), List.filter_cons_of_pos (by simpa using hnv)]
      have hle : (l.filter (fun k => decide (k ∉ a :: visited))).length ≤
          (l.filter (fun k => decide (k ∉ visited))).length := by
        apply List.Sublist.length_le
        apply List.monotone_filter_right
        intro b hb
        simp only [decide_eq_true_eq, List.mem_cons, not_or] at hb ⊢
        exact hb.2
      simpa using Nat.lt_succ_of_le hle
    · have hmem' : name ∈ l := by
        rcases List.mem_cons.mp _h with h1 | h1
        · exact absurd h1.symm ha
        · exact h1
      by_cases hav : a ∈ visited
      · rw [List.filter_cons_of_neg (by simp [hav]), List.filter_cons_of_neg (by simp [hav])]
        exact ih hmem'
      · have hax : a ∉ name :: visited := by
          intro hx
          rcases List.mem_cons.mp hx with h1 | h1
          · exact ha h1
          · exact hav h1
        rw [List.filter_cons_of_pos (by simpa using hax),
          List.filter_cons_of_pos (by simpa using hav)]
        simpa using Nat.succ_lt_succ (ih hmem')

theorem unvisitedCount_cons_lt {r : Registry} {name : PyStr} {visited : List PyStr}
    (hmem : name ∈ r.map Prod.fst) (hnv : name ∉ visited) :
    unvisitedCount r (name :: visited) < unvisitedCount r visited :=
  filter_unvisited_cons_lt hnv hmem

/-- `depsFold` steps one dependency at a time. -/
theorem depsFold_cons (g : PyStr → List PyStr → ResolveOut) (d : PyStr)
    (ds : List PyStr) (st : ResolveOut) :
    depsFold g (d :: ds) st = depsFold g ds (mergeStep st (g d st.visited)) := rfl

/-- Any two sufficient fuels compute the same resolution: the fuel embedding
is fuel-independent past the `unvisitedCount` bound, which is the
termination statement for `resolve_dependencies`. -/
theorem resolveFuel_irrel (r : Registry) (io : Bool) :
    ∀ (f g : Nat) (name : PyStr) (visited : List PyStr),
      unvisitedCount r visited < f → unvisitedCount r visited < g →
      resolve_dependencies_fuel r io f name visited =
        resolve_dependencies_fuel r io g name visited := by
  intro f
  induction f using Nat.strong_induction_on with
  | _ f IH =>
    intro g name visited hf hg
    obtain ⟨f', rfl⟩ : ∃ f', f = f' + 1 := ⟨f - 1, by omega⟩
    obtain ⟨g', rfl⟩ : ∃ g', g = g' + 1 := ⟨g - 1, by omega⟩
    rw [resolve_dependencies_fuel, resolve_dependencies_fuel]
    by_cases hmem : name ∈ visited
    · rw [if_pos hmem, if_pos hmem]
    · rw [if_neg hmem, if_neg hmem]
      cases hp : parse_mod_from_portal r name with
      | none => rfl
      | some mod =>
        have hkey : name ∈ r.map Prod.fst :=
          List.mem_map.mpr ⟨(name, mod), mem_of_dictGet hp, rfl⟩
        have hlt : unvisitedCount r (name :: visited) < unvisitedCount r visited :=
          unvisitedCount_cons_lt hkey hmem
        have hfold : ∀ (ds : List PyStr) (st : ResolveOut),
            unvisitedCount r st.visited < f' → unvisitedCount r st.visited < g' →
            depsFold (fun dep v => resolve_dependencies_fuel r io f' dep v) ds st =
              depsFold (fun dep v => resolve_dependencies_fuel r io g' dep v) ds st := by
          intro ds
          induction ds with
          | nil => intro st _ _; rfl
          | cons d rest ihd =>
            intro st hstf hstg
            have heq : resolve_dependencies_fuel r io f' d st.visited =
                resolve_dependencies_fuel r io g' d st.visited :=
              IH f' (by omega) g' d st.visited hstf hstg
            rw [depsFold_cons, depsFold_cons, heq]
            have hsub := (resolveFuel_RInv r io g' d st.visited).1
            have hle := unvisitedCount_anti (r := r) hsub
            exact ihd _ (lt_of_le_of_lt hle hstf) (lt_of_le_of_lt hle hstg)
        exact hfold _ _ (lt_of_lt_of_le hlt (by omega)) (lt_of_lt_of_le hlt (by omega))

theorem unvisitedCount_nil (r : Registry) : unvisitedCount r [] = r.length := by
  unfold unvisitedCount
  rw [List.filter_eq_self.mpr, List.length_map]
  intro a _
  simp

/-- `r.length + 1` fuel (the amount `resolve_dependencies` uses) is enough:
any larger fuel computes the same result. -/
theorem resolve_fuel_sufficient (r : Registry) (io : Bool) (name : PyStr)
    (f : Nat) (hf : r.length < f) :
    resolve_dependencies_fuel r io f name [] = resolve_dependencies r io name := by
  unfold resolve_dependencies
  apply resolveFuel_irrel
  · rw [unvisitedCount_nil]; exact hf
  · rw [unvisitedCount_nil]; omega

theorem dictGet_eq_of_perm {β : Type} {l l' : PyDict β} (hp : List.Perm l l')
    (hnd : (l.map Prod.fst).Nodup) (k : PyStr) : dictGet k l = dictGet k l' := by
  have hnd' : (l'.map Prod.fst).Nodup := ((hp.map Prod.fst).nodup_iff).mp hnd
  cases hv : dictGet k l with
  | none =>
    symm
    rw [dictGet_eq_none_iff] at hv ⊢
    intro hmem
    exact hv (((hp.map Prod.fst).mem_iff).mpr hmem)
  | some v =>
    symm
    exact dictGet_eq_some_of_mem_nodup hnd' (hp.mem_iff.mp (mem_of_dictGet hv))

/-! ## Version-comparison lemmas -/

theorem findSome?_range_succ (n : Nat) (f : Nat → Option Int) :
    (List.range (n + 1)).findSome? f =
      match f 0 with
      | some r => some r
      | none => (List.range n).findSome? (fun i => f (i + 1)) := by
  rw [List.range_succ_eq_map, List.findSome?_cons]
  cases f 0 with
  | some r => rfl
  | none => rw [List.findSome?_map]; rfl

theorem compareLoop_cons_cons (x y : Int) (xs ys : List Int) :
    compareLoop (x :: xs) (y :: ys) =
      if x < y then -1 else if y < x then 1 else compareLoop xs ys := by
  unfold compareLoop
  have hmax : max (x :: xs).length (y :: ys).length = max xs.length ys.length + 1 := by
    simp [List.length_cons, Nat.succ_max_succ]
  rw [hmax, findSome?_range_succ]
  simp only [List.getD_cons_zero, List.getD_cons_succ]
  by_cases h1 : x < y
  · rw [if_pos h1, if_pos h1]
  · rw [if_neg h1, if_neg h1]
    by_cases h2 : y < x
    · rw [if_pos h2, if_pos h2]
    · rw [if_neg h2, if_neg h2]

theorem compareLoop_cons_nil (x : Int) (xs : List Int) :
    compareLoop (x :: xs) [] =
      if x < 0 then -1 else if 0 < x then 1 else compareLoop xs [] := by
  unfold compareLoop
  have hmax : max (x :: xs).length ([] : List Int).length = max xs.length 0 + 1 := by
    simp [List.length_cons]
  rw [hmax, findSome?_range_succ]
  simp only [List.getD_cons_zero, List.getD_cons_succ, List.getD_nil]
  by_cases h1 : x < 0
  · rw [if_pos h1, if_pos h1]
  · rw [if_neg h1, if_neg h1]
    by_cases h2 : (0 : Int) < x
    · rw [if_pos h2, if_pos h2]
    · rw [if_neg h2, if_neg h2]
      rfl

theorem compareLoop_nil_cons (y : Int) (ys : List Int) :
    compareLoop [] (y :: ys) =
      if 0 < y then -1 else if y < 0 then 1 else compareLoop [] ys := by
  unfold compareLoop
  have hmax : max ([] : List Int).length (y :: ys).length = max 0 ys.length + 1 := by
    simp [List.length_cons]
  rw [hmax, findSome?_range_succ]
  simp only [List.getD_cons_zero, List.getD_cons_succ, List.getD_nil]
  by_cases h1 : (0 : Int) < y
  · rw [if_pos h1, if_pos h1]
  · rw [if_neg h1, if_neg h1]
    by_cases h2 : y < 0
    · rw [if_pos h2, if_pos h2]
    · rw [if_neg h2, if_neg h2]
      rfl

/-- The source's index loop computes exactly the spec's zero-padded
component-wise comparison. -/
theorem compareLoop_eq_spec : ∀ (p1 p2 : List Int),
    compareLoop p1 p2 = versionCmpSpec p1 p2 := by
  intro p1
  induction p1 with
  | nil =>
    intro p2
    induction p2 with
    | nil => rfl
    | cons y ys ih => rw [compareLoop_nil_cons, ih]; rfl
  | cons x xs ih =>
    intro p2
    cases p2 with
    | nil => rw [compareLoop_cons_nil, versionCmpSpec, ih]
    | cons y ys => rw [compareLoop_cons_cons, versionCmpSpec, ih]

/-! ## Closure and merge lemmas -/

/-- Every entry of a resolved closure is a registry entry (in particular the
closure never invents or rewrites versions/metadata). -/
theorem closure_entry_lookup {r : Registry} {io : Bool} {root : PyStr}
    {kv : PyStr × PMod} (h : kv ∈ (resolve_dependencies r io root).dependencies) :
    List.lookup kv.1 r = some kv.2 :=
  (resolveFuel_RInv r io (r.length + 1) root []).2.2.2.2 kv h

theorem mem_merge_resolutions_aux {r : Registry} {io : Bool} :
    ∀ {roots : List PyStr} {acc : PyDict PMod} {kv : PyStr × PMod},
      kv ∈ roots.foldl
        (fun all_mods root =>
          dictUpdate all_mods (resolve_dependencies r io root).dependencies) acc →
      kv ∈ acc ∨ ∃ root ∈ roots, kv ∈ (resolve_dependencies r io root).dependencies := by
  intro roots
  induction roots with
  | nil => intro acc kv h; exact Or.inl h
  | cons root rest ih =>
    intro acc kv h
    rw [List.foldl_cons] at h
    rcases ih h with h1 | h1
    · rcases mem_dictUpdate h1 with h2 | h2
      · exact Or.inl h2
      · exact Or.inr ⟨root, List.mem_cons_self _ _, h2⟩
    · obtain ⟨root', hr, hkv⟩ := h1
      exact Or.inr ⟨root', List.mem_cons_of_mem _ hr, hkv⟩

theorem mem_merge_resolutions {r : Registry} {io : Bool} {roots : List PyStr}
    {kv : PyStr × PMod} (h : kv ∈ merge_resolutions r io roots) :
    ∃ root ∈ roots, kv ∈ (resolve_dependencies r io root).dependencies := by
  rcases mem_merge_resolutions_aux h with h1 | h1
  · exact absurd h1 (List.not_mem_nil kv)
  · exact h1

theorem merge_resolutions_entry_lookup {r : Registry} {io : Bool}
    {roots : List PyStr} {kv : PyStr × PMod}
    (h : kv ∈ merge_resolutions r io roots) : List.lookup kv.1 r = some kv.2 := by
  obtain ⟨root, _, hkv⟩ := mem_merge_resolutions h
  exact closure_entry_lookup hkv

theorem nodup_keys_merge_resolutions (r : Registry) (io : Bool) :
    ∀ (roots : List PyStr) (acc : PyDict PMod),
      (acc.map Prod.fst).Nodup →
      ((roots.foldl
        (fun all_mods root =>
          dictUpdate all_mods (resolve_dependencies r io root).dependencies)
        acc).map Prod.fst).Nodup := by
  intro roots
  induction roots with
  | nil => intro acc h; exact h
  | cons root rest ih =>
    intro acc h
    rw [List.foldl_cons]
    exact ih _ (nodup_keys_dictUpdate h)

theorem firstClosureValue_lookup {r : Registry} {io : Bool} :
    ∀ {roots : List PyStr} {k : PyStr} {v : PMod},
      firstClosureValue r io roots k = some v → List.lookup k r = some v := by
  intro roots
  induction roots with
  | nil => intro k v h; exact Option.noConfusion h
  | cons root rest ih =>
    intro k v h
    rw [firstClosureValue] at h
    cases hg : dictGet k (resolve_dependencies r io root).dependencies with
    | some w =>
      rw [hg] at h
      have hw : w = v := Option.some.inj h
      subst hw
      exact closure_entry_lookup (mem_of_dictGet hg)
    | none =>
      rw [hg] at h
      exact ih h

theorem firstClosureValue_isSome {r : Registry} {io : Bool} :
    ∀ {roots : List PyStr} {root : PyStr} {k : PyStr}, root ∈ roots →
      (dictGet k (resolve_dependencies r io root).dependencies).isSome →
      (firstClosureValue r io roots k).isSome := by
  intro roots
  induction roots with
  | nil => intro root k h _; exact absurd h (List.not_mem_nil root)
  | cons root0 rest ih =>
    intro root k hmem hsome
    rw [firstClosureValue]
    cases hg : dictGet k (resolve_dependencies r io root0).dependencies with
    | some w => simp
    | none =>
      rcases List.mem_cons.mp hmem with h1 | h1
      · subst h1
        rw [hg] at hsome
        exact absurd hsome (by simp)
      · exact ih h1 hsome

/-! ## Parser lemmas -/

/-- The optional branch never emits an expansion name as optional: the
membership test against `FACTORIO_EXPANSIONS` comes first. -/
theorem classify_optional_not_expansion (dep name : PyStr)
    (h : classify_dependency dep = .optionalDep name) :
    name ∉ FACTORIO_EXPANSIONS := by
  unfold classify_dependency at h
  dsimp only [] at h
  split_ifs at h
  all_goals first
    | exact DepClass.noConfusion h
    | (obtain ⟨rfl⟩ := DepClass.optionalDep.inj h; assumption)

/-- The required branch never emits an expansion name as required. -/
theorem classify_required_not_expansion (dep name : PyStr)
    (h : classify_dependency dep = .required name) :
    name ∉ FACTORIO_EXPANSIONS := by
  unfold classify_dependency at h
  dsimp only [] at h
  split_ifs at h
  all_goals first
    | exact DepClass.noConfusion h
    | (obtain ⟨rfl⟩ := DepClass.required.inj h; assumption)

/-- Any declaration whose stripped text starts with `!` is classified
Incompatible, and the emitted name is the whole remaining text after the
marker, trimmed — no split at whitespace and no expansion check. -/
theorem classify_bang_incompatible (dep : PyStr)
    (h : pyStartsWith "!".data (pyStrip dep) = true) :
    classify_dependency dep = .incompatible (pyStrip ((pyStrip dep).drop 1)) := by
  unfold classify_dependency
  dsimp only []
  cases hs : pyStrip dep with
  | nil => rw [hs] at h; exact absurd h (by decide)
  | cons c t =>
    rw [hs] at h
    have hc : c = '!' := by
      simp [pyStartsWith, List.isPrefixOf] at h
      exact h.symm
    subst hc
    rw [if_neg ?_, if_pos ?_]
    · simp [pyStartsWith, List.isPrefixOf]
    · intro hor
      rcases hor with h1 | h1 | h1
      · exact List.cons_ne_nil _ _ h1
      · exact absurd (List.head_eq_of_cons_eq h1) (by decide)
      · simp [pyStartsWith, List.isPrefixOf] at h1

/-! ## Claims

Each claim of the specification audit gets exactly one theorem below (plus,
where required, a witness instantiation or a counterexample). -/

/-- C1: the claim states that `download_mods(["good", "bad"])` with only
"good" in the registry returns `downloaded=["good"]` and `failed=["bad"]`.
The downloaded part and the non-raising part hold, but the failed part does
not: `resolve_dependencies` swallows every resolution error internally
(lines 133-137/165-166 of core/downloader.py), so the `except` branch of
`download_mods` that would append the root to `failed` (lines 321-323) is
unreachable, and the unresolvable root "bad" ends up in neither list.  This
theorem evaluates the embedded code at the failing input: `failed` comes back
empty, not `["bad"]`. -/
theorem C1_failed_root_not_recorded :
    download_mods [("good".data, pmodOf [])] (fun _ => true) false
      ["good".data, "bad".data]
      = ([("good".data, pmodOf [])], []) := by decide

/-- C2: in `download_mods`, merging the per-root closures never changes the
value recorded for a name: every closure entry is the registry entry for its
name (the resolver stores exactly `parse_mod_from_portal`'s result), so the
final merged map (also after the `dict(sorted(...))` re-keying) carries, for
every name it contains, the value from the first closure (in root order) that
contained that name. -/
theorem C2_merge_first_write_wins (r : Registry) (io : Bool)
    (roots : List PyStr) (k : PyStr) (v : PMod)
    (h : dictGet k (merge_resolutions r io roots) = some v) :
    firstClosureValue r io roots k = some v ∧
    dictGet k (pySortedByKey (merge_resolutions r io roots)) = some v := by
  have hmem := mem_of_dictGet h
  have hv : List.lookup k r = some v := merge_resolutions_entry_lookup hmem
  obtain ⟨root, hroot, hkv⟩ := mem_merge_resolutions hmem
  have hsome : (dictGet k (resolve_dependencies r io root).dependencies).isSome :=
    dictGet_isSome_of_mem hkv
  have hfcv := firstClosureValue_isSome hroot hsome
  obtain ⟨u, hu⟩ := Option.isSome_iff_exists.mp hfcv
  have hu2 : List.lookup k r = some u := firstClosureValue_lookup hu
  have huv : u = v := by
    rw [hv] at hu2
    exact (Option.some.inj hu2).symm
  constructor
  · rw [hu, huv]
  · have hnd : ((merge_resolutions r io roots).map Prod.fst).Nodup :=
      nodup_keys_merge_resolutions r io roots [] List.nodup_nil
    have hperm := dictGet_eq_of_perm
      ((perm_sortLe (fun x y => pyStrLe x.1 y.1) (merge_resolutions r io roots)).symm)
      hnd k
    unfold pySortedByKey
    rw [← hperm]
    exact h

/-- Witness for C2 at a concrete registry: the name "x" resolved from two
roots keeps its (unique) registry value in the merged map. -/
theorem C2_merge_first_write_wins_witness :
    firstClosureValue [("x".data, pmodOf [])] false ["x".data, "x".data] "x".data
        = some (pmodOf []) ∧
    dictGet "x".data
        (pySortedByKey (merge_resolutions [("x".data, pmodOf [])] false
          ["x".data, "x".data])) = some (pmodOf []) :=
  C2_merge_first_write_wins [("x".data, pmodOf [])] false ["x".data, "x".data]
    "x".data (pmodOf []) (by decide)

/-- C3 counterexample: a declaration carrying the leading `!` marker whose
extracted name is the paid expansion "space-age" is classified Incompatible,
not Expansion — the `!` branch of `get_mod_dependencies` (portal.py lines
177-180) has no expansion check, so the claim's "regardless of which marker
... leading `!`" is false: the declaration lands in the incompatible
partition. -/
theorem C3_bang_expansion_counterexample :
    classify_dependency "!space-age".data = .incompatible "space-age".data ∧
    "space-age".data ∈ FACTORIO_EXPANSIONS := by decide

/-- C3 (amended): for declarations carrying the `(?)`/`?` marker or no
marker, an extracted name in the fixed expansion set is always reclassified
Expansion (it never lands in the optional or required partition); a
declaration with the leading `!` marker, however, is classified Incompatible
even when its name is an expansion. -/
theorem C3_expansion_reclassified_except_bang :
    (∀ (dep name : PyStr), classify_dependency dep = .optionalDep name →
      name ∉ FACTORIO_EXPANSIONS) ∧
    (∀ (dep name : PyStr), classify_dependency dep = .required name →
      name ∉ FACTORIO_EXPANSIONS) ∧
    classify_dependency "? space-age".data = .expansion "space-age".data ∧
    classify_dependency "elevated-rails".data = .expansion "elevated-rails".data ∧
    classify_dependency "!elevated-rails".data = .incompatible "elevated-rails".data :=
  ⟨classify_optional_not_expansion, classify_required_not_expansion,
    by decide, by decide, by decide⟩

/-- Witness for C3 (amended) at concrete declarations: "mod-x", classified
optional and required respectively, is certified not to be an expansion. -/
theorem C3_expansion_reclassified_except_bang_witness :
    "mod-x".data ∉ FACTORIO_EXPANSIONS ∧ "mod-y".data ∉ FACTORIO_EXPANSIONS :=
  ⟨C3_expansion_reclassified_except_bang.1 "(?) mod-x".data "mod-x".data (by decide),
    C3_expansion_reclassified_except_bang.2.1 "mod-y".data "mod-y".data (by decide)⟩

/-- C4 counterexample: for the declaration "! some-mod >= 1.0" the emitted
incompatible name is the whole remainder "some-mod >= 1.0", not "some-mod":
the `!` branch (portal.py lines 177-180) strips and trims but never splits at
whitespace, so the version-constraint text stays attached. -/
theorem C4_bang_name_counterexample :
    classify_dependency "! some-mod >= 1.0".data
        = .incompatible "some-mod >= 1.0".data ∧
    classify_dependency "! some-mod >= 1.0".data
        ≠ .incompatible "some-mod".data := by decide

/-- C4 (amended): every declaration whose trimmed text begins with `!` is
classified Incompatible, and the extracted name is the whole remaining text
after stripping the marker and trimming (any version-constraint text
included). -/
theorem C4_bang_incompatible_full_remainder (dep : PyStr)
    (h : pyStartsWith "!".data (pyStrip dep) = true) :
    classify_dependency dep = .incompatible (pyStrip ((pyStrip dep).drop 1)) :=
  classify_bang_incompatible dep h

/-- Witness for C4 (amended) at a concrete declaration. -/
theorem C4_bang_incompatible_full_remainder_witness :
    classify_dependency "!x >= 1".data
      = .incompatible (pyStrip (((pyStrip "!x >= 1".data)).drop 1)) :=
  C4_bang_incompatible_full_remainder "!x >= 1".data (by decide)

/-- C5 counterexample: with `force=true`, a pre-existing file at the target
path (content `[1,2,3]`), and a mirror response whose body fails the archive
integrity check, the fetch returns false and the target path is empty
afterwards — the pre-existing file was overwritten and then unlinked, so the
filesystem is NOT left in its prior state. -/
theorem C5_failure_removes_preexisting :
    download_mod (fun _ => false) (.resp 200 [9]) true (some [1, 2, 3])
      = (false, none) := by decide

/-- C5 (amended): a failed fetch never leaves a NEW file at the target path
(if nothing was there before, nothing is there after), and the target is left
either untouched (404/non-200 failures) or removed (corrupt-archive and
transport failures) — but a pre-existing file at the target path may be
deleted rather than preserved. -/
theorem C5_fetch_failure_filesystem (validZip : Bytes → Bool) (res : MirrorResult)
    (force : Bool) (fs : Option Bytes) (ok : Bool) (fs2 : Option Bytes)
    (he : download_mod validZip res force fs = (ok, fs2)) (hok : ok = false) :
    (fs2 = fs ∨ fs2 = none) ∧ (fs = none → fs2 = none) := by
  subst hok
  unfold download_mod _download_with_re146 at he
  by_cases hskip : fs.isSome ∧ ¬ force
  · rw [if_pos hskip] at he
    injection he with h1 h2
    exact Bool.noConfusion h1
  · rw [if_neg hskip] at he
    cases res with
    | resp status body =>
      dsimp only at he
      by_cases h404 : status = 404
      · rw [if_pos h404] at he
        injection he with h1 h2
        exact ⟨Or.inl h2.symm, fun hnone => h2.symm.trans hnone⟩
      · rw [if_neg h404] at he
        by_cases h200 : status ≠ 200
        · rw [if_pos h200] at he
          injection he with h1 h2
          exact ⟨Or.inl h2.symm, fun hnone => h2.symm.trans hnone⟩
        · rw [if_neg h200] at he
          by_cases hzip : validZip body = true
          · rw [if_pos hzip] at he
            injection he with h1 h2
            exact Bool.noConfusion h1
          · rw [if_neg hzip] at he
            injection he with h1 h2
            exact ⟨Or.inr h2.symm, fun _ => h2.symm⟩
    | exnBeforeWrite =>
      dsimp only at he
      injection he with h1 h2
      exact ⟨Or.inr h2.symm, fun _ => h2.symm⟩
    | exnDuringWrite w =>
      dsimp only at he
      injection he with h1 h2
      exact ⟨Or.inr h2.symm, fun _ => h2.symm⟩

/-- Witness for C5 (amended): a 404 failure with a pre-existing file under
`force` leaves the file in place; the conclusion holds at that input. -/
theorem C5_fetch_failure_filesystem_witness :
    ((some [1] : Option Bytes) = some [1] ∨ (some [1] : Option Bytes) = none) ∧
    ((some [1] : Option Bytes) = none → (some [1] : Option Bytes) = none) :=
  C5_fetch_failure_filesystem (fun _ => false) (.resp 404 []) true (some [1])
    false (some [1]) (by decide) rfl

/-- C6: `Mod._compare_versions` compares dotted version strings
component-wise as integers — the spec's three examples hold, any non-numeric
component (a failed `int()` parse) makes it report 0 (equal) instead of
raising, and whenever both strings parse the result is exactly the spec's
zero-padded component-wise comparison (`versionCmpSpec`). -/
theorem C6_version_comparison :
    _compare_versions "1.2.0".data "1.2".data = 0 ∧
    _compare_versions "1.9.0".data "1.10.0".data = -1 ∧
    _compare_versions "2.0".data "1.9.9".data = 1 ∧
    (∀ (v1 v2 : PyStr), pyVersionParts v1 = none ∨ pyVersionParts v2 = none →
      _compare_versions v1 v2 = 0) ∧
    (∀ (v1 v2 : PyStr) (p1 p2 : List Int),
      pyVersionParts v1 = some p1 → pyVersionParts v2 = some p2 →
      _compare_versions v1 v2 = versionCmpSpec p1 p2) := by
  refine ⟨by decide, by decide, by decide, ?_, ?_⟩
  · intro v1 v2 h
    rcases h with h1 | h1
    · unfold _compare_versions
      rw [h1]
    · unfold _compare_versions
      rw [h1]
      cases pyVersionParts v1 <;> rfl
  · intro v1 v2 p1 p2 h1 h2
    unfold _compare_versions
    rw [h1, h2]
    exact compareLoop_eq_spec p1 p2

/-- Witness for C6's conditional clauses: a non-numeric component compares
equal, and "1.2" vs "1.3" follows the spec comparison of `[1,2]` vs `[1,3]`. -/
theorem C6_version_comparison_witness :
    _compare_versions "1.x".data "2.0".data = 0 ∧
    _compare_versions "1.2".data "1.3".data = versionCmpSpec [1, 2] [1, 3] :=
  ⟨C6_version_comparison.2.2.2.1 "1.x".data "2.0".data (Or.inl (by decide)),
    C6_version_comparison.2.2.2.2 "1.2".data "1.3".data [1, 2] [1, 3]
      (by decide) (by decide)⟩

/-- C7: the resolver terminates on every registry — a visited name returns
empty immediately (the cycle/diamond guard), any two fuels above the
registry size compute the same result (the fuel embedding has stabilised, so
the recursion provably needs no more than `|registry|` real levels), and on
the synthetic A→B→C→A cycle the closure is exactly {A, B, C}, each name
appearing once. -/
theorem C7_resolver_cycle_termination :
    (∀ (r : Registry) (io : Bool) (fuel : Nat) (name : PyStr) (visited : List PyStr),
        name ∈ visited →
        resolve_dependencies_fuel r io (fuel + 1) name visited
          = ⟨[], [], [], visited, []⟩) ∧
    (∀ (r : Registry) (io : Bool) (f g : Nat) (name : PyStr),
        r.length < f → r.length < g →
        resolve_dependencies_fuel r io f name [] =
          resolve_dependencies_fuel r io g name []) ∧
    (resolve_dependencies regCycle false "A".data).dependencies.map Prod.fst
        = ["A".data, "B".data, "C".data] ∧
    ((resolve_dependencies regCycle false "A".data).dependencies.map Prod.fst).Nodup := by
  refine ⟨?_, ?_, by decide, by decide⟩
  · intro r io fuel name visited h
    rw [resolve_dependencies_fuel, if_pos h]
  · intro r io f g name hf hg
    rw [resolve_fuel_sufficient r io name f hf, resolve_fuel_sufficient r io name g hg]

/-- Witness for C7's conditional clauses at concrete inputs. -/
theorem C7_resolver_cycle_termination_witness :
    resolve_dependencies_fuel [] false 1 "x".data ["x".data]
        = ⟨[], [], [], ["x".data], []⟩ ∧
    resolve_dependencies_fuel regCycle false 4 "A".data [] =
      resolve_dependencies_fuel regCycle false 9 "A".data [] :=
  ⟨C7_resolver_cycle_termination.1 [] false 0 "x".data ["x".data] (by decide),
    C7_resolver_cycle_termination.2.1 regCycle false 4 9 "A".data (by decide) (by decide)⟩

/-- C8: `get_mod` classifies every request outcome into exactly one result:
200 with a parseable body returns the parsed body; 404 raises NotFound with
status 404; every other non-200 status raises ServerError carrying the
status; connection errors, timeouts, and any other exception raise Offline,
Timeout and Unknown respectively (a 200 whose body fails to parse raises
`ValueError` inside the `try`, which the trailing generic handler turns into
Unknown).  The enumeration covers every constructor of the outcome type, so
no other outcome is possible. -/
theorem C8_get_mod_outcome_classification :
    (∀ (α : Type) (j : α), get_mod (.resp 200 (some j)) = .ok j) ∧
    (∀ (α : Type) (b : Option α),
      get_mod (.resp 404 b) = .error ⟨.not_found, some 404⟩) ∧
    (∀ (α : Type) (s : Nat) (b : Option α), s ≠ 200 → s ≠ 404 →
      get_mod (.resp s b) = .error ⟨.server_error, some s⟩) ∧
    (∀ (α : Type), get_mod (α := α) .connectionError = .error ⟨.offline, none⟩) ∧
    (∀ (α : Type), get_mod (α := α) .timeoutExc = .error ⟨.timeout, none⟩) ∧
    (∀ (α : Type), get_mod (α := α) .otherExc = .error ⟨.unknown, none⟩) ∧
    (∀ (α : Type), get_mod (α := α) (.resp 200 none) = .error ⟨.unknown, none⟩) := by
  refine ⟨?_, ?_, ?_, ?_, ?_, ?_, ?_⟩
  · intro α j; rfl
  · intro α b
    unfold get_mod
    dsimp only
    rw [if_neg (by decide), if_pos rfl]
  · intro α s b h200 h404
    unfold get_mod
    dsimp only
    rw [if_neg h200, if_neg h404]
  · intro α; rfl
  · intro α; rfl
  · intro α; rfl
  · intro α; rfl

/-- Witness for C8's conditional clause: a 500 response is a ServerError
carrying status 500. -/
theorem C8_get_mod_outcome_classification_witness :
    get_mod (ReqOutcome.resp 500 (none : Option Nat))
      = .error ⟨.server_error, some 500⟩ :=
  C8_get_mod_outcome_classification.2.2.1 Nat 500 none (by decide) (by decide)

/-- C9: for any three distinct names where `a` requires `b` and optionally
wants `c` (all resolvable leaves), resolving `a` without optional
dependencies yields the closure {a, b} and with optional dependencies the
closure {a, b, c}: the recursed set is `dependencies`, plus
`optional_dependencies` exactly when `include_optional` is true. -/
theorem C9_optional_dependency_inclusion (a b c : PyStr)
    (hab : a ≠ b) (hac : a ≠ c) (hbc : b ≠ c) :
    (resolve_dependencies (regOpt a b c) false a).dependencies.map Prod.fst = [a, b] ∧
    (resolve_dependencies (regOpt a b c) true a).dependencies.map Prod.fst = [a, b, c] := by
  have e1 : (b == a) = false := beq_false_of_ne (Ne.symm hab)
  have e2 : (a == b) = false := beq_false_of_ne hab
  have e3 : (c == a) = false := beq_false_of_ne (Ne.symm hac)
  have e4 : (a == c) = false := beq_false_of_ne hac
  have e5 : (c == b) = false := beq_false_of_ne (Ne.symm hbc)
  have e6 : (b == c) = false := beq_false_of_ne hbc
  constructor <;>
    simp [resolve_dependencies, regOpt, resolve_dependencies_fuel, depsFold, mergeStep,
      dictUpdate, dictSet, dictGet, parse_mod_from_portal, List.lookup, pmodOf,
      hab, hac, hbc, Ne.symm hab, Ne.symm hac, Ne.symm hbc, e1, e2, e3, e4, e5, e6]

/-- Witness for C9 at the names "A", "B", "C". -/
theorem C9_optional_dependency_inclusion_witness :
    (resolve_dependencies (regOpt "A".data "B".data "C".data) false
        "A".data).dependencies.map Prod.fst = ["A".data, "B".data] ∧
    (resolve_dependencies (regOpt "A".data "B".data "C".data) true
        "A".data).dependencies.map Prod.fst = ["A".data, "B".data, "C".data] :=
  C9_optional_dependency_inclusion "A".data "B".data "C".data
    (by decide) (by decide) (by decide)

/-- C10: within one top-level resolve, no name is ever passed to the
registry lookup twice (the ghost lookup trace has no duplicates — a name is
added to `visited` before its lookup, so any later encounter hits the
guard), and a name whose lookup fails is absent from the returned closure. -/
theorem C10_visited_guard_consequences (r : Registry) (io : Bool) (root : PyStr) :
    (resolve_dependencies r io root).trace.Nodup ∧
    (∀ (n : PyStr), List.lookup n r = none →
      dictGet n (resolve_dependencies r io root).dependencies = none) := by
  constructor
  · exact (resolveFuel_RInv r io (r.length + 1) root []).2.1
  · intro n hn
    cases hg : dictGet n (resolve_dependencies r io root).dependencies with
    | none => rfl
    | some v =>
      have h2 : List.lookup n r = some v := closure_entry_lookup (mem_of_dictGet hg)
      rw [hn] at h2
      exact Option.noConfusion h2

/-- Witness for C10 at a concrete registry and an unknown name. -/
theorem C10_visited_guard_consequences_witness :
    (resolve_dependencies [("a".data, pmodOf [])] false "a".data).trace.Nodup ∧
    dictGet "z".data
        (resolve_dependencies [("a".data, pmodOf [])] false "a".data).dependencies
      = none :=
  ⟨(C10_visited_guard_consequences [("a".data, pmodOf [])] false "a".data).1,
    (C10_visited_guard_consequences [("a".data, pmodOf [])] false "a".data).2
      "z".data (by decide)⟩

end FactorioManager
